import Mathlib

/-!
Formal model of the Provider Aggregation & Resilience Layer of the
ai-news-automation repository.

The Python source is embedded shallowly:

* machine time (`time.time()` / `datetime.now()`) is a rational number of
  seconds, passed explicitly to every operation that reads the clock;
* Python dictionaries become association lists with replace-on-insert;
* fallible operations return `Option`/`Except`;
* the concrete provider HTTP clients (network I/O) are a parameter
  `beh : ℕ → Option String → FetchOutcome` giving each provider's response;
* Python `str.lower` / `\w` / `\s` are modelled over ASCII, which covers
  every keyword table and error message in the source.

Sources embedded: `src/core/rate_limiter.py` (RateLimiter, EnhancedCache),
`src/core/news_providers.py` (NewsProvider), `src/core/category_analyzer.py`
(CategoryAnalyzer), `src/core/provider_manager.py` (NewsProviderManager).
-/

namespace NewsAuto

/-! ### Association lists (Python `dict` / the per-key cache files on disk) -/

/-- First value bound to `k`, like `d[k]` / `d.get(k)`. -/
def alookup {β : Type} (l : List (String × β)) (k : String) : Option β :=
  (l.find? (fun kv => kv.1 = k)).map Prod.snd

/-- Bind `k` to `v`, replacing any previous binding (`d[k] = v`). -/
def aset {β : Type} (l : List (String × β)) (k : String) (v : β) : List (String × β) :=
  (k, v) :: l.filter (fun kv => decide (kv.1 ≠ k))

/-- Remove every binding of `k` (`del d[k]` / `os.remove`). -/
def adel {β : Type} (l : List (String × β)) (k : String) : List (String × β) :=
  l.filter (fun kv => decide (kv.1 ≠ k))

/-! ### RateLimiter — src/core/rate_limiter.py lines 12–51 -/

structure RateLimiter where
  /-- `calls`: number of calls allowed inside the window. -/
  calls : ℕ
  /-- `time_window`: window length in seconds. -/
  time_window : ℚ
  /-- `timestamps`: recorded acquisition times. -/
  timestamps : List ℚ
deriving Repr, DecidableEq

/-- `RateLimiter.__init__(calls, time_window)`. -/
def RateLimiter.init (calls : ℕ) (time_window : ℚ) : RateLimiter :=
  { calls := calls, time_window := time_window, timestamps := [] }

/-- `RateLimiter.try_acquire`, with `now = time.time()` made explicit.
Returns the boolean result and the state after the call. -/
def RateLimiter.try_acquire (s : RateLimiter) (now : ℚ) : Bool × RateLimiter :=
  let pruned := s.timestamps.filter (fun ts => decide (ts > now - s.time_window))
  if pruned.length < s.calls then
    (true, { s with timestamps := pruned ++ [now] })
  else
    (false, { s with timestamps := pruned })

/-! ### EnhancedCache — src/core/rate_limiter.py lines 53–144

Both tiers hold `(value, expiry)` pairs keyed by a string; the disk tier
models the per-key JSON files (an absent key is an absent file). -/

structure EnhancedCache (α : Type) where
  memory_cache : List (String × α × ℚ)
  disk_cache : List (String × α × ℚ)
  /-- `default_expiry = timedelta(hours=1)`, in seconds. -/
  default_expiry : ℚ
deriving Repr, DecidableEq

/-- `EnhancedCache.__init__` (fresh directory: no files yet). -/
def EnhancedCache.init (α : Type) : EnhancedCache α :=
  { memory_cache := [], disk_cache := [], default_expiry := 3600 }

/-- The file-tier half of `EnhancedCache.get`: read `{key}.json`, promote
into the memory tier when unexpired, delete the file when expired. -/
def EnhancedCache.getDisk {α : Type} (c : EnhancedCache α) (key : String) (now : ℚ) :
    Option α × EnhancedCache α :=
  match alookup c.disk_cache key with
  | some (v, e) =>
    if e > now then
      (some v, { c with memory_cache := aset c.memory_cache key (v, e) })
    else
      (none, { c with disk_cache := adel c.disk_cache key })
  | none => (none, c)

/-- `EnhancedCache.get`: memory tier first (evicting an expired entry),
then the file tier. -/
def EnhancedCache.get {α : Type} (c : EnhancedCache α) (key : String) (now : ℚ) :
    Option α × EnhancedCache α :=
  match alookup c.memory_cache key with
  | some (v, e) =>
    if now < e then (some v, c)
    else EnhancedCache.getDisk { c with memory_cache := adel c.memory_cache key } key now
  | none => EnhancedCache.getDisk c key now

/-- Python `expiry or self.default_expiry` (rate_limiter.py:100): `or`
tests truthiness, so the default replaces both `None` and a falsy zero
timedelta (a non-zero timedelta, negative included, is truthy). -/
def orDefault (expiry : Option ℚ) (dflt : ℚ) : ℚ :=
  match expiry with
  | some e => if e = 0 then dflt else e
  | none => dflt

/-- `EnhancedCache.set(key, value, expiry)`: write
`(value, now + (expiry or default_expiry))` to both tiers. -/
def EnhancedCache.set {α : Type} (c : EnhancedCache α) (key : String) (value : α)
    (expiry : Option ℚ) (now : ℚ) : EnhancedCache α :=
  let expiry_time := now + orDefault expiry c.default_expiry
  { c with memory_cache := aset c.memory_cache key (value, expiry_time),
           disk_cache := aset c.disk_cache key (value, expiry_time) }

/-- `EnhancedCache.clear_expired`: sweep both tiers. -/
def EnhancedCache.clear_expired {α : Type} (c : EnhancedCache α) (now : ℚ) : EnhancedCache α :=
  { c with memory_cache := c.memory_cache.filter (fun kv => decide (¬ kv.2.2 < now)),
           disk_cache := c.disk_cache.filter (fun kv => decide (¬ kv.2.2 < now)) }

/-! ### NewsProvider — src/core/news_providers.py -/

structure NewsProvider where
  name : String
  is_available : Bool
  last_error : Option String
  last_successful_fetch : Option ℚ
  failure_count : ℕ
  consecutive_failures : ℕ
  total_requests : ℕ
  successful_requests : ℕ
deriving Repr, DecidableEq

/-- `NewsProvider.__init__(name)`. -/
def NewsProvider.init (name : String) : NewsProvider :=
  { name := name, is_available := true, last_error := none,
    last_successful_fetch := none, failure_count := 0,
    consecutive_failures := 0, total_requests := 0, successful_requests := 0 }

/-- `NewsProvider.mark_available`. -/
def NewsProvider.mark_available (p : NewsProvider) : NewsProvider :=
  { p with is_available := true, last_error := none, consecutive_failures := 0 }

/-- `NewsProvider.mark_unavailable(error)`. -/
def NewsProvider.mark_unavailable (p : NewsProvider) (error : String) : NewsProvider :=
  { p with is_available := false, last_error := some error,
           failure_count := p.failure_count + 1,
           consecutive_failures := p.consecutive_failures + 1 }

/-- `NewsProvider.track_request(success)`, with `datetime.now()` explicit. -/
def NewsProvider.track_request (p : NewsProvider) (success : Bool) (now : ℚ) : NewsProvider :=
  if success then
    { p with total_requests := p.total_requests + 1,
             successful_requests := p.successful_requests + 1,
             last_successful_fetch := some now,
             consecutive_failures := 0 }
  else
    { p with total_requests := p.total_requests + 1,
             consecutive_failures := p.consecutive_failures + 1 }

/-- Python `round(q, 2)`: round half to even at two decimal places
(exact rational model of float `round`). -/
def roundHalfEven (q : ℚ) : ℤ :=
  let f := ⌊q⌋
  let r := q - (f : ℚ)
  if r < 1/2 then f
  else if 1/2 < r then f + 1
  else if f % 2 = 0 then f else f + 1

def round2 (q : ℚ) : ℚ := (roundHalfEven (q * 100) : ℚ) / 100

/-- The dictionary returned by `NewsProvider.get_health_metrics`. -/
structure HealthMetrics where
  name : String
  available : Bool
  lastError : Option String
  lastSuccessfulFetch : Option ℚ
  failureCount : ℕ
  consecutiveFailures : ℕ
  totalRequests : ℕ
  successfulRequests : ℕ
  successRate : ℚ
deriving Repr, DecidableEq

/-- `NewsProvider.get_health_metrics`:
`success_rate = successful_requests / total_requests * 100 if total_requests > 0 else 0`,
reported as `round(success_rate, 2)`. -/
def NewsProvider.get_health_metrics (p : NewsProvider) : HealthMetrics :=
  let success_rate : ℚ :=
    if 0 < p.total_requests then
      (p.successful_requests : ℚ) / (p.total_requests : ℚ) * 100
    else 0
  { name := p.name, available := p.is_available, lastError := p.last_error,
    lastSuccessfulFetch := p.last_successful_fetch,
    failureCount := p.failure_count,
    consecutiveFailures := p.consecutive_failures,
    totalRequests := p.total_requests,
    successfulRequests := p.successful_requests,
    successRate := round2 success_rate }

/-- The method as a state transformer: it computes the snapshot and leaves
`self` untouched (the Python body only reads attributes). -/
def NewsProvider.get_health_metricsM (p : NewsProvider) : HealthMetrics × NewsProvider :=
  (p.get_health_metrics, p)

/-! ### CategoryAnalyzer — src/core/category_analyzer.py

The keyword regexes all have the shape `\b(w1|w2|…)\b` where every
alternative starts and ends with an ASCII letter or digit, so
`re.findall(pattern, text, re.IGNORECASE)` is embedded as a left-to-right
scan: at each position whose left neighbour is not a word character, take
the first alternative that matches case-insensitively and whose right end
sits at a word boundary, then resume after it (non-overlapping matches,
alternation preferring earlier alternatives, as in Python `re`). -/

/-- ASCII `str.lower`. -/
def lowerChar (c : Char) : Char :=
  if 'A' ≤ c ∧ c ≤ 'Z' then Char.ofNat (c.toNat + 32) else c

def lowerStr (s : String) : String := String.mk (s.data.map lowerChar)

/-- ASCII `\s` for `str.strip()`. -/
def isSpaceChar (c : Char) : Bool :=
  c = ' ' || c = '\t' || c = '\n' || c = '\r'

def stripStr (s : String) : String :=
  String.mk (((s.data.dropWhile isSpaceChar).reverse.dropWhile isSpaceChar).reverse)

/-- ASCII `\w`. -/
def isWordChar (c : Char) : Bool :=
  ('a' ≤ c && c ≤ 'z') || ('A' ≤ c && c ≤ 'Z') || ('0' ≤ c && c ≤ '9') || c = '_'

/-- Python `needle in haystack` (substring containment). -/
def subList (needle haystack : List Char) : Bool :=
  match haystack with
  | [] => needle.isEmpty
  | _ :: t => needle.isPrefixOf haystack || subList needle t

def strContains (haystack needle : String) : Bool := subList needle.data haystack.data

/-- Case-insensitive literal match of a nonempty `w` at the head of `t`;
returns the text after the match. -/
def dropCI (w t : List Char) : Option (List Char) :=
  match w with
  | [] => none
  | _ =>
    if (w.map lowerChar).isPrefixOf (t.map lowerChar) then some (t.drop w.length)
    else none

/-- Right word boundary: the text after a match starts with a non-word
character (or is empty). -/
def endBoundary (t : List Char) : Bool :=
  match t with
  | [] => true
  | c :: _ => !isWordChar c

/-- First alternative (in alternation order) that matches at the head of
`t` with its right end on a word boundary. -/
def tryAlts (alts : List (List Char)) (t : List Char) : Option (List Char) :=
  match alts with
  | [] => none
  | w :: ws =>
    match dropCI w t with
    | some t' => if endBoundary t' then some t' else tryAlts ws t
    | none => tryAlts ws t

/-- The scan itself; `prevW` says whether the character left of the current
position is a word character (no match can start there then, because of the
leading `\b`).  `fuel` bounds the number of steps; every step consumes at
least one character, so `text.length + 1` is always enough. -/
def scanCount (alts : List (List Char)) : ℕ → Bool → List Char → ℕ
  | 0, _, _ => 0
  | _ + 1, _, [] => 0
  | fuel + 1, prevW, c :: rest =>
    if prevW then scanCount alts fuel (isWordChar c) rest
    else
      match tryAlts alts (c :: rest) with
      | some t' => 1 + scanCount alts fuel true t'
      | none => scanCount alts fuel (isWordChar c) rest

/-- `len(re.findall(r'\b(alt1|alt2|…)\b', text, re.IGNORECASE))`. -/
def findallCount (alts : List String) (text : String) : ℕ :=
  scanCount (alts.map String.data) (text.data.length + 1) false text.data

/-- `CategoryAnalyzer.CATEGORY_MAPPING`, in source (insertion) order. -/
def CATEGORY_MAPPING : List (String × String) :=
  [("tech", "technology"), ("sci", "science"), ("health", "health"),
   ("sport", "sports"), ("business", "business"), ("politics", "politics"),
   ("entertainment", "entertainment"), ("opinion", "opinion"),
   ("world", "world"), ("finance", "markets"), ("financial", "markets"),
   ("market", "markets"), ("stock", "markets")]

/-- `CategoryAnalyzer.CATEGORY_PATTERNS`: per category, the list of regex
patterns, each given by its list of alternatives, in source order. -/
def CATEGORY_PATTERNS : List (String × List (List String)) :=
  [("technology",
    [["tech", "technology", "AI", "software", "cyber", "digital", "blockchain",
      "crypto", "programming", "computer", "mobile", "gadget", "innovation"],
     ["robot", "automation", "machine learning", "artificial intelligence",
      "cloud", "coding", "developer", "startup"]]),
   ("science",
    [["science", "research", "study", "experiment", "discovery", "physics",
      "chemistry", "biology", "astronomy", "space"],
     ["scientist", "laboratory", "quantum", "theory", "hypothesis",
      "scientific", "universe", "nasa", "breakthrough"]]),
   ("health",
    [["health", "medical", "medicine", "doctor", "patient", "disease",
      "treatment", "therapy", "vaccine", "hospital"],
     ["healthcare", "wellness", "mental health", "clinical", "surgery",
      "pharmaceutical", "drug", "covid", "virus"]]),
   ("sports",
    [["sport", "game", "match", "tournament", "championship", "athlete",
      "team", "player", "coach", "score"],
     ["football", "soccer", "basketball", "tennis", "baseball", "cricket",
      "racing", "olympics", "league", "win"]]),
   ("business",
    [["business", "company", "economy", "corporate", "industry",
      "enterprise", "commercial", "retail"],
     ["profit", "revenue", "merger", "acquisition", "startup",
      "entrepreneur", "CEO", "commerce", "employment"]]),
   ("markets",
    [["stock", "market", "trading", "NYSE", "NASDAQ", "BSE", "NSE",
      "Dow Jones", "S&P 500", "Nifty", "Sensex"],
     ["shares", "equity", "bond", "commodity", "forex", "currency", "IPO",
      "dividend", "portfolio", "bull", "bear"],
     ["Wall Street", "Dalal Street", "Mumbai", "financial", "investment",
      "fund", "hedge", "mutual"],
     ["earnings", "quarterly", "annual", "report", "analyst", "rating",
      "upgrade", "downgrade", "target"]]),
   ("politics",
    [["politic", "government", "election", "president", "congress",
      "senate", "policy", "law", "democracy", "vote"],
     ["campaign", "minister", "parliament", "diplomatic", "legislation",
      "party", "senator", "democrat", "republican"]]),
   ("entertainment",
    [["entertainment", "movie", "film", "music", "celebrity", "actor",
      "actress", "song", "concert", "show"],
     ["tv", "television", "series", "netflix", "streaming", "hollywood",
      "star", "award", "performance", "media"]]),
   ("world",
    [["world", "global", "international", "foreign", "country", "nation",
      "diplomatic", "treaty", "summit", "UN"],
     ["war", "peace", "crisis", "conflict", "refugee", "climate",
      "agreement", "trade", "relation", "embassy"]])]

/-- The article dictionary, restricted to the fields the embedded code
reads or writes.  A missing/`None` provider category is the empty string
(both are falsy under `article.get('category')`). -/
structure Article where
  title : String
  description : String
  content : String
  category : String
  aiEnhanced : Bool
  aiBadge : Bool
  fetchedAt : Option ℚ
deriving Repr, DecidableEq

/-- `' '.join(filter(None, [title, description, content])).lower()`. -/
def joinedText (title description content : String) : String :=
  lowerStr (String.intercalate " "
    (([title, description, content]).filter (fun s => decide (s ≠ ""))))

/-- Total `findall` count for one category's pattern list over `text`
(the per-pattern counts are summed, as in `_detect_category`). -/
def patternScore (pats : List (List String)) (text : String) : ℕ :=
  (pats.map (fun alts => findallCount alts text)).sum

/-- The per-category match counts, in `CATEGORY_PATTERNS` order. -/
def categoryScores (text : String) : List (String × ℕ) :=
  CATEGORY_PATTERNS.map (fun cp => (cp.1, patternScore cp.2 text))

/-- `Counter.most_common(1)[0]`: the first entry (in insertion order)
carrying the maximal count — `heapq.nlargest` is a stable descending
sort, so ties keep insertion order. -/
def topOf (scores : List (String × ℕ)) : Option (String × ℕ) :=
  match scores with
  | [] => none
  | s :: rest =>
    some (rest.foldl (fun best cur => if cur.2 > best.2 then cur else best) s)

/-- `CategoryAnalyzer._detect_category`. -/
def CategoryAnalyzer.detect_category (a : Article) : Option String :=
  let text := joinedText a.title a.description a.content
  match topOf (categoryScores text) with
  | some top => if top.2 ≥ 2 then some top.1 else none
  | none => none

/-- `CategoryAnalyzer._normalize_category`. -/
def CategoryAnalyzer.normalize_category (category : String) : Option String :=
  let c := stripStr (lowerStr category)
  if (CATEGORY_PATTERNS.map Prod.fst).contains c then some c
  else (CATEGORY_MAPPING.find? (fun kv => strContains c kv.1)).map Prod.snd

/-- `CategoryAnalyzer.get_category`. -/
def CategoryAnalyzer.get_category (a : Article) : String :=
  if a.category ≠ "" then
    match CategoryAnalyzer.normalize_category a.category with
    | some normalized => normalized
    | none => (CategoryAnalyzer.detect_category a).getD "general"
  else (CategoryAnalyzer.detect_category a).getD "general"

/-! ### NewsProviderManager — src/core/provider_manager.py

Provider identity is the index into `providers` (`available_providers`
holds object references in Python, here the corresponding indices).  The
upstream HTTP calls are a parameter `beh : ℕ → Option String → FetchOutcome`:
what `providers[i].fetch_news(category)` would produce.  `calls` is the
instrumentation trace of the providers whose `fetch_news` was invoked, in
order (the spec's call-count assertions). -/

/-- Outcome of one concrete provider's `fetch_news`: a parsed article list,
or a raised exception with message `msg`. -/
inductive FetchOutcome where
  | ok (articles : List Article)
  | err (msg : String)
deriving Repr, DecidableEq

structure NewsProviderManager where
  providers : List NewsProvider
  /-- `available_providers`, as indices into `providers`. -/
  available_providers : List ℕ
  use_cache : Bool
  /-- The `cache/news_cache_{key}.json` files: key ↦ stored article list. -/
  cache : List (String × List Article)
deriving Repr, DecidableEq

/-- Indices of the currently available providers:
`[p for p in self.providers if p.is_available]`. -/
def availIdx (providers : List NewsProvider) : List ℕ :=
  (List.range providers.length).filter
    (fun i => (providers[i]?.map NewsProvider.is_available).getD false)

/-- `NewsProviderManager.__init__(use_cache)` with the three concrete
providers `Guardian`, `GDELT`, `NewsAPI` (each constructor ends by setting
`is_available = True`). -/
def NewsProviderManager.init (use_cache : Bool) : NewsProviderManager :=
  let ps := [NewsProvider.init "Guardian", NewsProvider.init "GDELT",
             NewsProvider.init "NewsAPI"]
  { providers := ps, available_providers := availIdx ps,
    use_cache := use_cache, cache := [] }

/-- `category or 'general'` in `_get_cache_file`. -/
def cacheKey (category : Option String) : String :=
  match category with
  | some c => if c = "" then "general" else c
  | none => "general"

/-- `NewsProviderManager._save_to_cache`. -/
def NewsProviderManager.save_to_cache (m : NewsProviderManager)
    (articles : List Article) (category : Option String) : NewsProviderManager :=
  { m with cache := aset m.cache (cacheKey category) articles }

/-- `NewsProviderManager._load_from_cache(category, ignore_age)`: missing
or empty file is a miss; a first article without `fetchedAt` stamps every
article with `now`; unless `ignore_age`, the entry is fresh only when
`now - fetchedAt < 1 hour` (3600 s), judged on the first article. -/
def NewsProviderManager.load_from_cache (m : NewsProviderManager)
    (category : Option String) (ignore_age : Bool) (now : ℚ) : List Article :=
  match alookup m.cache (cacheKey category) with
  | none => []
  | some [] => []
  | some (a0 :: rest) =>
    let articles :=
      if a0.fetchedAt = none then
        (a0 :: rest).map (fun a => { a with fetchedAt := some now })
      else a0 :: rest
    if ignore_age then articles
    else
      match articles.head?.bind Article.fetchedAt with
      | some ts => if now - ts < 3600 then articles else []
      | none => []

/-- The per-article processing on the success path of `fetch_news`:
`article['category'] = CategoryAnalyzer.get_category(article)`, then the
AI-enhancement badge and title prefix. -/
def processArticle (a : Article) : Article :=
  let a1 := { a with category := CategoryAnalyzer.get_category a }
  if a1.aiEnhanced then { a1 with title := "🤖 " ++ a1.title, aiBadge := true }
  else a1

/-- The mutable locals of the provider loop in `fetch_news`. -/
structure FetchLoopState where
  providers : List NewsProvider
  available_providers : List ℕ
  errors : List String
  calls : List ℕ
deriving Repr, DecidableEq

/-- One iteration of the provider loop of `fetch_news` for the provider at
`idx`; returns the processed articles on the success (non-empty) path. -/
def fetchStep (beh : ℕ → Option String → FetchOutcome) (category : Option String)
    (now : ℚ) (ls : FetchLoopState) (idx : ℕ) :
    Option (List Article) × FetchLoopState :=
  match ls.providers[idx]? with
  | none => (none, ls)
  | some p =>
    let ls := { ls with calls := ls.calls ++ [idx] }
    match beh idx category with
    | .ok articles =>
      match articles with
      | [] =>
        (none, { ls with providers := ls.providers.set idx (p.track_request false now) })
      | a0 :: rest =>
        let p' := p.track_request true now
        let processed := (a0 :: rest).map processArticle
        (some processed, { ls with providers := ls.providers.set idx p' })
    | .err msg =>
      let p1 := (p.track_request false now).mark_unavailable msg
      let disabled := 3 ≤ p1.get_health_metrics.consecutiveFailures
      let p2 := if disabled then { p1 with is_available := false } else p1
      let providers' := ls.providers.set idx p2
      let avail' := if disabled then availIdx providers' else ls.available_providers
      (none, { ls with
                providers := providers'
                available_providers := avail'
                errors := ls.errors ++ [p.name ++ ": " ++ msg] })

/-- The provider loop itself, over the list of providers captured when the
`for` statement started. -/
def fetchLoop (beh : ℕ → Option String → FetchOutcome) (category : Option String)
    (now : ℚ) : List ℕ → FetchLoopState → Option (List Article) × FetchLoopState
  | [], ls => (none, ls)
  | idx :: rest, ls =>
    match fetchStep beh category now ls idx with
    | (some arts, ls') => (some arts, ls')
    | (none, ls') => fetchLoop beh category now rest ls'

/-- What one call of `NewsProviderManager.fetch_news` produces: the value
returned or the exception message raised, the manager state afterwards, and
the trace of providers actually invoked. -/
structure FetchResult where
  result : Except String (List Article)
  manager : NewsProviderManager
  calls : List ℕ
deriving Repr

/-- `NewsProviderManager.fetch_news(category)`. -/
def NewsProviderManager.fetch_news (m : NewsProviderManager)
    (beh : ℕ → Option String → FetchOutcome) (category : Option String)
    (now : ℚ) : FetchResult :=
  let cached := if m.use_cache then m.load_from_cache category false now else []
  if cached ≠ [] then { result := .ok cached, manager := m, calls := [] }
  else
    let ls0 : FetchLoopState :=
      { providers := m.providers, available_providers := m.available_providers,
        errors := [], calls := [] }
    match fetchLoop beh category now m.available_providers ls0 with
    | (some articles, ls) =>
      let m' := { m with providers := ls.providers,
                         available_providers := ls.available_providers }
      let m' := if m.use_cache then m'.save_to_cache articles category else m'
      { result := .ok articles, manager := m', calls := ls.calls }
    | (none, ls) =>
      let m' := { m with providers := ls.providers,
                         available_providers := ls.available_providers }
      match m'.load_from_cache category true now with
      | [] =>
        { result := .error ("All news providers failed: " ++
            String.intercalate "; " ls.errors),
          manager := m', calls := ls.calls }
      | a0 :: rest => { result := .ok (a0 :: rest), manager := m', calls := ls.calls }

/-- `NewsProviderManager.reset_providers`. -/
def NewsProviderManager.reset_providers (m : NewsProviderManager) : NewsProviderManager :=
  let ps := m.providers.map NewsProvider.mark_available
  { m with providers := ps, available_providers := availIdx ps }

/-! ### Derived notions used by the statements -/

/-- A provider attempt that does not produce articles: an exception, or a
successful call with an empty result. -/
def isFail : FetchOutcome → Bool
  | .ok [] => true
  | .ok (_ :: _) => false
  | .err _ => true

/-- The failure messages accumulated by the provider loop, one per
provider whose `fetch_news` raised, in rotation order
(`f"{provider.name}: {str(e)}"`). -/
def aggErrors (names : List String) (beh : ℕ → Option String → FetchOutcome)
    (category : Option String) (idxs : List ℕ) : List String :=
  idxs.filterMap (fun i =>
    match names.get? i, beh i category with
    | some nm, .err msg => some (nm ++ ": " ++ msg)
    | _, _ => none)

/-- The step-1 fresh cache read of `fetch_news` misses (either caching is
off, or the fresh read comes back empty). -/
def freshMiss (m : NewsProviderManager) (category : Option String) (now : ℚ) : Prop :=
  (if m.use_cache then m.load_from_cache category false now else []) = []

instance (m : NewsProviderManager) (category : Option String) (now : ℚ) :
    Decidable (freshMiss m category now) := by
  unfold freshMiss
  infer_instance

/-! ### Concrete fixtures for witnesses and counterexamples -/

/-- A plain article as a provider would return it (no upstream category). -/
def artX : Article :=
  { title := "Quantum breakthrough", description := "", content := "",
    category := "tech", aiEnhanced := false, aiBadge := false, fetchedAt := none }

/-- Provider 0 raises, the others return one article. -/
def behRaiseHead : ℕ → Option String → FetchOutcome := fun i _ =>
  if i = 0 then .err "boom" else .ok [artX]

/-- Provider 0 returns an empty list, the others return one article. -/
def behEmptyHead : ℕ → Option String → FetchOutcome := fun i _ =>
  if i = 0 then .ok [] else .ok [artX]

/-- Every provider raises. -/
def behAllFail : ℕ → Option String → FetchOutcome := fun i _ =>
  .err ("e" ++ toString i)

/-- A manager as built by `NewsProviderManager(use_cache=False)`. -/
def mgr0 : NewsProviderManager := NewsProviderManager.init false

/-- `mgr0` after one `fetch_news` call in which provider 0 raised and
provider 1 succeeded. -/
def mgr1 : NewsProviderManager := (mgr0.fetch_news behRaiseHead none 0).manager

/-- An already-fetched article sitting in a cache file. -/
def artCached : Article :=
  { title := "Cached story", description := "", content := "",
    category := "general", aiEnhanced := false, aiBadge := false,
    fetchedAt := some 0 }

/-- A caching manager whose `general` cache file holds `artCached`. -/
def mgrC : NewsProviderManager :=
  { NewsProviderManager.init true with cache := [("general", [artCached])] }

/-- The article of the spec's normalization scenario. -/
def artTech : Article :=
  { title := "AI chip breakthrough", description := "Some description",
    content := "", category := "tech", aiEnhanced := false, aiBadge := false,
    fetchedAt := none }

/-- An article with no provider category and market-flavoured text. -/
def artMarkets : Article :=
  { title := "Quarterly earnings beat forecasts, stock surges",
    description := "", content := "", category := "", aiEnhanced := false,
    aiBadge := false, fetchedAt := none }

/-- An article whose provider category `"biotech"` is no alias key, but
contains the alias key `"tech"` as a substring. -/
def artBio : Article :=
  { title := "Gene therapy results", description := "", content := "",
    category := "biotech", aiEnhanced := false, aiBadge := false,
    fetchedAt := none }

/-! ## Theorems -/

/-! ### Rounding helper lemmas (for `round(x, 2)`) -/

lemma abs_roundHalfEven_sub_le (q : ℚ) : |(roundHalfEven q : ℚ) - q| ≤ 1/2 := by
  have hfl : ((⌊q⌋ : ℚ)) ≤ q := Int.floor_le q
  have hfu : q < (⌊q⌋ : ℚ) + 1 := Int.lt_floor_add_one q
  unfold roundHalfEven
  by_cases h1 : q - (⌊q⌋ : ℚ) < 1/2
  · simp only [h1, if_true]
    rw [abs_le]
    constructor <;> linarith
  · by_cases h2 : (1:ℚ)/2 < q - (⌊q⌋ : ℚ)
    · simp only [h1, if_false, h2, if_true]
      push_cast
      rw [abs_le]
      constructor <;> linarith
    · by_cases h3 : ⌊q⌋ % 2 = 0
      · simp only [h1, if_false, h2, if_false, h3, if_true]
        rw [abs_le]
        constructor <;> linarith
      · simp only [h1, if_false, h2, if_false, h3, if_false]
        push_cast
        rw [abs_le]
        constructor <;> linarith

lemma abs_round2_sub_le (q : ℚ) : |round2 q - q| ≤ 1/200 := by
  have h := abs_roundHalfEven_sub_le (q * 100)
  unfold round2
  have heq : (roundHalfEven (q * 100) : ℚ) / 100 - q
      = ((roundHalfEven (q * 100) : ℚ) - q * 100) / 100 := by ring
  rw [heq, abs_div]
  have h100 : |(100 : ℚ)| = 100 := by norm_num
  rw [h100]
  rw [div_le_iff₀ (by norm_num : (0:ℚ) < 100)]
  linarith

/-- **C7.** For every key `k` and value `v`: after `cache.set(k, v, ttl)`,
`cache.get(k)` returns `v` at any time strictly before the entry's expiry
timestamp `set-time + (ttl or default)`, and returns not-found (`None`) at
any time once that expiry has elapsed. -/
theorem C7_cache_set_get_roundtrip {α : Type} (c : EnhancedCache α) (k : String)
    (v : α) (ttl : Option ℚ) (t now : ℚ) :
    (now < t + orDefault ttl c.default_expiry →
      ((c.set k v ttl t).get k now).1 = some v) ∧
    (t + orDefault ttl c.default_expiry ≤ now →
      ((c.set k v ttl t).get k now).1 = none) := by
  constructor
  · intro h
    simp [EnhancedCache.set, EnhancedCache.get, alookup, aset, List.find?, h]
  · intro h
    have hnot : ¬ now < t + orDefault ttl c.default_expiry := not_lt.mpr h
    have hnot' : ¬ t + orDefault ttl c.default_expiry > now := hnot
    simp [EnhancedCache.set, EnhancedCache.get, EnhancedCache.getDisk,
      alookup, aset, adel, List.find?, hnot, hnot']

/-- Witness for C7 at concrete instances: key `"technology"`, value `7`,
set at time 0.  With `ttl = none` (default 3600 s) a read at 1000 hits and
a read at 3600 misses; with the falsy `ttl = some 0` the entry still lives
at 1000, Python's `or` having substituted the 1-hour default. -/
theorem C7_cache_set_get_roundtrip_witness :
    ((1000 : ℚ) < 0 + orDefault none (EnhancedCache.init ℕ).default_expiry ∧
      (((EnhancedCache.init ℕ).set "technology" 7 none 0).get "technology" 1000).1 = some 7) ∧
    ((0 : ℚ) + orDefault none (EnhancedCache.init ℕ).default_expiry ≤ 3600 ∧
      (((EnhancedCache.init ℕ).set "technology" 7 none 0).get "technology" 3600).1 = none) ∧
    ((1000 : ℚ) < 0 + orDefault (some 0) (EnhancedCache.init ℕ).default_expiry ∧
      (((EnhancedCache.init ℕ).set "technology" 7 (some 0) 0).get "technology" 1000).1 = some 7) :=
  ⟨⟨by norm_num [orDefault, EnhancedCache.init],
    (C7_cache_set_get_roundtrip (EnhancedCache.init ℕ) "technology" 7 none 0 1000).1
      (by norm_num [orDefault, EnhancedCache.init])⟩,
   ⟨by norm_num [orDefault, EnhancedCache.init],
    (C7_cache_set_get_roundtrip (EnhancedCache.init ℕ) "technology" 7 none 0 3600).2
      (by norm_num [orDefault, EnhancedCache.init])⟩,
   ⟨by norm_num [orDefault, EnhancedCache.init],
    (C7_cache_set_get_roundtrip (EnhancedCache.init ℕ) "technology" 7 (some 0) 0 1000).1
      (by norm_num [orDefault, EnhancedCache.init])⟩⟩

/-- **C8.** `try_acquire` first discards exactly the recorded timestamps at
or before `now - windowSeconds`; if fewer than `maxCalls` remain it appends
`now` and returns `true`, otherwise it returns `false` with the (pruned)
timestamps otherwise unchanged. -/
theorem C8_try_acquire_sliding_window (s : RateLimiter) (now : ℚ) :
    (∀ ts ∈ s.timestamps,
      (ts ∈ s.timestamps.filter (fun x => decide (x > now - s.time_window)) ↔
        ¬ ts ≤ now - s.time_window)) ∧
    ((s.timestamps.filter (fun x => decide (x > now - s.time_window))).length < s.calls →
      s.try_acquire now = (true,
        { s with timestamps :=
            s.timestamps.filter (fun x => decide (x > now - s.time_window)) ++ [now] })) ∧
    (¬ (s.timestamps.filter (fun x => decide (x > now - s.time_window))).length < s.calls →
      s.try_acquire now = (false,
        { s with timestamps :=
            s.timestamps.filter (fun x => decide (x > now - s.time_window)) })) := by
  refine ⟨?_, ?_, ?_⟩
  · intro ts hts
    simp [List.mem_filter, hts, not_le]
  · intro h
    simp [RateLimiter.try_acquire, h]
  · intro h
    simp [RateLimiter.try_acquire, h]

/-- Witness for C8: limiter with `maxCalls = 2`, `window = 10`, timestamps
`[0, 5]` at `now = 11`: the `0` entry is discarded, one slot is free, so
the call succeeds and records `11`. -/
theorem C8_try_acquire_sliding_window_witness :
    ((0:ℚ) ∈ ([0, 5] : List ℚ) ∧
      (((0:ℚ) ∈ ([0, 5] : List ℚ).filter (fun x => decide (x > (11:ℚ) - 10))) ↔
        ¬ (0:ℚ) ≤ (11:ℚ) - 10)) ∧
    ((([0, 5] : List ℚ).filter (fun x => decide (x > (11:ℚ) - 10))).length < 2 ∧
      RateLimiter.try_acquire { calls := 2, time_window := 10, timestamps := [0, 5] } 11 =
        (true, { calls := 2, time_window := 10, timestamps := [5, 11] })) := by
  constructor
  · exact ⟨by norm_num,
      (C8_try_acquire_sliding_window
        { calls := 2, time_window := 10, timestamps := [0, 5] } 11).1 0 (by norm_num)⟩
  · have hlen : (([0, 5] : List ℚ).filter (fun x => decide (x > (11:ℚ) - 10))).length < 2 := by
      norm_num [List.filter]
    refine ⟨hlen, ?_⟩
    have h := (C8_try_acquire_sliding_window
      { calls := 2, time_window := 10, timestamps := [0, 5] } 11).2.1 hlen
    rw [h]
    norm_num [List.filter]

/-- **C9, counterexample.** The claim says the reported success rate equals
`successfulRequests / totalRequests`.  For a provider with 1 success out of
2 requests the code reports `round(1/2 * 100, 2) = 50.0`, a percentage,
which is not `1/2`. -/
theorem C9_counterexample :
    (NewsProvider.get_health_metrics
        { NewsProvider.init "Guardian" with
            total_requests := 2, successful_requests := 1 }).successRate = 50 ∧
    ((1 : ℚ) : ℚ) / ((2 : ℚ)) = 1/2 ∧
    ¬ ((50 : ℚ) = 1/2) := by
  refine ⟨?_, by norm_num, by norm_num⟩
  simp [NewsProvider.get_health_metrics, NewsProvider.init]
  norm_num [round2, roundHalfEven]

/-- **C9, amended.** `getHealthMetrics` reports the success rate as a
percentage: `successfulRequests / totalRequests × 100` rounded to two
decimals (hence within `1/200` of the exact percentage), and `0` when no
request was recorded; the snapshot leaves the provider state unchanged. -/
theorem C9_health_metrics_success_rate (p : NewsProvider) :
    (p.get_health_metricsM.2 = p) ∧
    (p.total_requests = 0 → p.get_health_metricsM.1.successRate = 0) ∧
    (0 < p.total_requests →
      p.get_health_metricsM.1.successRate =
        round2 ((p.successful_requests : ℚ) / (p.total_requests : ℚ) * 100) ∧
      |p.get_health_metricsM.1.successRate -
        (p.successful_requests : ℚ) / (p.total_requests : ℚ) * 100| ≤ 1/200) := by
  refine ⟨rfl, ?_, ?_⟩
  · intro h
    simp [NewsProvider.get_health_metricsM, NewsProvider.get_health_metrics, h,
      round2, roundHalfEven]
  · intro h
    constructor
    · simp [NewsProvider.get_health_metricsM, NewsProvider.get_health_metrics, h]
    · have heq : p.get_health_metricsM.1.successRate =
          round2 ((p.successful_requests : ℚ) / (p.total_requests : ℚ) * 100) := by
        simp [NewsProvider.get_health_metricsM, NewsProvider.get_health_metrics, h]
      rw [heq]
      exact abs_round2_sub_le _

/-- Witness for C9 (amended) at the provider with 1 success in 2 requests
and at a fresh provider with no requests. -/
theorem C9_health_metrics_success_rate_witness :
    ((NewsProvider.init "GDELT").total_requests = 0 ∧
      (NewsProvider.init "GDELT").get_health_metricsM.1.successRate = 0) ∧
    (0 < ({ NewsProvider.init "Guardian" with
             total_requests := 2, successful_requests := 1 } : NewsProvider).total_requests ∧
      ({ NewsProvider.init "Guardian" with
          total_requests := 2, successful_requests := 1 } : NewsProvider).get_health_metricsM.1.successRate = 50) := by
  constructor
  · exact ⟨rfl, (C9_health_metrics_success_rate (NewsProvider.init "GDELT")).2.1 rfl⟩
  · refine ⟨by norm_num, ?_⟩
    have h := (C9_health_metrics_success_rate
      { NewsProvider.init "Guardian" with
          total_requests := 2, successful_requests := 1 }).2.2 (by norm_num)
    rw [h.1]
    norm_num [round2, roundHalfEven]

/-- **C6.** Three-tier classification: an article whose provider category
normalizes to a supported label gets that label, and the text fields are
never consulted for it; otherwise the (case-insensitive, over
title+description+content) keyword scores decide — the top-scoring
category when its count is at least 2, else `"general"`. -/
theorem C6_get_category_three_tiers (a : Article) :
    (∀ std, a.category ≠ "" →
      CategoryAnalyzer.normalize_category a.category = some std →
      CategoryAnalyzer.get_category a = std ∧
      ∀ a' : Article, a'.category = a.category →
        CategoryAnalyzer.get_category a' = std) ∧
    ((a.category = "" ∨ CategoryAnalyzer.normalize_category a.category = none) →
      ∀ top, topOf (categoryScores (joinedText a.title a.description a.content)) = some top →
        CategoryAnalyzer.get_category a = if 2 ≤ top.2 then top.1 else "general") := by
  constructor
  · intro std hne hn
    refine ⟨by simp [CategoryAnalyzer.get_category, hne, hn], ?_⟩
    intro a' ha'
    have hne' : a'.category ≠ "" := by rw [ha']; exact hne
    have hn' : CategoryAnalyzer.normalize_category a'.category = some std := by
      rw [ha']; exact hn
    simp [CategoryAnalyzer.get_category, hne', hn']
  · intro h top htop
    by_cases hc : a.category = ""
    · simp only [CategoryAnalyzer.get_category, hc, ne_eq, not_true_eq_false, if_false,
        CategoryAnalyzer.detect_category, htop]
      by_cases h2 : 2 ≤ top.2 <;> simp [h2, ge_iff_le]
    · have hn : CategoryAnalyzer.normalize_category a.category = none := h.resolve_left hc
      simp only [CategoryAnalyzer.get_category, hc, ne_eq, not_false_eq_true, if_true, hn,
        CategoryAnalyzer.detect_category, htop]
      by_cases h2 : 2 ≤ top.2 <;> simp [h2, ge_iff_le]

/-- Witness for C6: the spec scenario `category = "tech"` normalizes to
`"technology"` (also with the text fields blanked), and the category-less
markets headline scores `("markets", 3)`, hence classifies as
`"markets"`. -/
theorem C6_get_category_three_tiers_witness :
    (artTech.category ≠ "" ∧
      CategoryAnalyzer.normalize_category artTech.category = some "technology" ∧
      CategoryAnalyzer.get_category artTech = "technology" ∧
      CategoryAnalyzer.get_category
        { artTech with title := "", description := "", content := "" } = "technology") ∧
    ((artMarkets.category = "" ∨
        CategoryAnalyzer.normalize_category artMarkets.category = none) ∧
      topOf (categoryScores
        (joinedText artMarkets.title artMarkets.description artMarkets.content)) =
        some ("markets", 3) ∧
      CategoryAnalyzer.get_category artMarkets = "markets") := by
  constructor
  · have h := (C6_get_category_three_tiers artTech).1 "technology" (by decide) (by decide)
    exact ⟨by decide, by decide, h.1, h.2 _ rfl⟩
  · have h := (C6_get_category_three_tiers artMarkets).2 (Or.inl rfl)
      ("markets", 3) (by decide)
    exact ⟨Or.inl rfl, by decide, by simpa using h⟩

/-- For every supported label (a key of `CATEGORY_PATTERNS`), the first
alias key of `CATEGORY_MAPPING` it contains maps back to the label
itself. -/
lemma patternKeys_alias_fixpoint :
    ∀ lc ∈ CATEGORY_PATTERNS.map Prod.fst,
      (CATEGORY_MAPPING.find? (fun kv => strContains lc kv.1)).map Prod.snd = some lc := by
  decide

/-- **C10.** Provider-category normalization accepts aliases by substring
containment: when the lowercased, stripped provider category contains some
alias key, `get_category` returns the standard label mapped from the first
such key (in table order), and never consults the text fields. -/
theorem C10_alias_substring_containment (a : Article) (kv : String × String)
    (hc : a.category ≠ "")
    (hfind : CATEGORY_MAPPING.find?
      (fun x => strContains (stripStr (lowerStr a.category)) x.1) = some kv) :
    CategoryAnalyzer.get_category a = kv.2 ∧
    ∀ a' : Article, a'.category = a.category →
      CategoryAnalyzer.get_category a' = kv.2 := by
  have hnorm : CategoryAnalyzer.normalize_category a.category = some kv.2 := by
    have hq : CategoryAnalyzer.normalize_category a.category =
        (if (CATEGORY_PATTERNS.map Prod.fst).contains (stripStr (lowerStr a.category)) = true
         then some (stripStr (lowerStr a.category))
         else (CATEGORY_MAPPING.find?
           (fun x => strContains (stripStr (lowerStr a.category)) x.1)).map Prod.snd) := rfl
    rw [hq]
    by_cases hmem :
        (CATEGORY_PATTERNS.map Prod.fst).contains (stripStr (lowerStr a.category)) = true
    · rw [if_pos hmem]
      have hmem' : stripStr (lowerStr a.category) ∈ CATEGORY_PATTERNS.map Prod.fst := by
        simpa using hmem
      have h := patternKeys_alias_fixpoint _ hmem'
      rw [hfind] at h
      simp only [Option.map] at h
      rw [Option.some_inj] at h ⊢
      exact h.symm
    · rw [if_neg hmem, hfind]
      rfl
  constructor
  · simp [CategoryAnalyzer.get_category, hc, hnorm]
  · intro a' ha'
    have hc' : a'.category ≠ "" := by rw [ha']; exact hc
    have hnorm' : CategoryAnalyzer.normalize_category a'.category = some kv.2 := by
      rw [ha']; exact hnorm
    simp [CategoryAnalyzer.get_category, hc', hnorm']

/-- Witness for C10: `"biotech"` is no supported label, but contains the
alias key `"tech"`, so the article classifies as `"technology"` regardless
of its text. -/
theorem C10_alias_substring_containment_witness :
    (artBio.category ≠ "" ∧
      CATEGORY_MAPPING.find?
        (fun x => strContains (stripStr (lowerStr artBio.category)) x.1) =
        some ("tech", "technology")) ∧
    CategoryAnalyzer.get_category artBio = "technology" ∧
    CategoryAnalyzer.get_category { artBio with title := "Stock market earnings" } = "technology" := by
  have h := C10_alias_substring_containment artBio ("tech", "technology")
    (by decide) (by decide)
  exact ⟨⟨by decide, by decide⟩, h.1, h.2 _ rfl⟩

/-! ### Helper lemmas about the provider loop -/

lemma fetchStep_providers_length (beh : ℕ → Option String → FetchOutcome)
    (category : Option String) (now : ℚ) (ls : FetchLoopState) (idx : ℕ) :
    (fetchStep beh category now ls idx).2.providers.length = ls.providers.length := by
  rcases hg : ls.providers[idx]? with _ | p
  · simp [fetchStep, hg]
  · rcases hb : beh idx category with arts | msg
    · rcases arts with _ | ⟨a0, rest⟩
      · simp [fetchStep, hg, hb]
      · simp [fetchStep, hg, hb]
    · simp [fetchStep, hg, hb]

lemma fetchStep_providers_names (beh : ℕ → Option String → FetchOutcome)
    (category : Option String) (now : ℚ) (ls : FetchLoopState) (idx : ℕ) :
    (fetchStep beh category now ls idx).2.providers.map NewsProvider.name
      = ls.providers.map NewsProvider.name := by
  rcases hg : ls.providers[idx]? with _ | p
  · simp [fetchStep, hg]
  · have hlt : idx < ls.providers.length := by
      rcases List.getElem?_eq_some.mp hg with ⟨h, _⟩; exact h
    have hset : ∀ q : NewsProvider, q.name = p.name →
        (ls.providers.set idx q).map NewsProvider.name
          = ls.providers.map NewsProvider.name := by
      intro q hq
      apply List.ext_getElem?
      intro n
      by_cases hn : idx = n
      · subst hn
        rw [List.getElem?_map, List.getElem?_map, List.getElem?_set_eq_of_lt _ hlt, hg]
        simp [hq]
      · rw [List.getElem?_map, List.getElem?_map, List.getElem?_set_ne hn]
    rcases hb : beh idx category with arts | msg
    · rcases arts with _ | ⟨a0, rest⟩
      · simp only [fetchStep, hg, hb]
        exact hset _ rfl
      · simp only [fetchStep, hg, hb]
        exact hset _ rfl
    · simp only [fetchStep, hg, hb]
      exact hset _ (by split <;> rfl)

lemma fetchStep_get?_ne (beh : ℕ → Option String → FetchOutcome)
    (category : Option String) (now : ℚ) (ls : FetchLoopState) (idx j : ℕ)
    (hne : idx ≠ j) :
    (fetchStep beh category now ls idx).2.providers[j]? = ls.providers[j]? := by
  rcases hg : ls.providers[idx]? with _ | p
  · simp [fetchStep, hg]
  · rcases hb : beh idx category with arts | msg
    · rcases arts with _ | ⟨a0, rest⟩
      · simp only [fetchStep, hg, hb]
        exact List.getElem?_set_ne hne
      · simp only [fetchStep, hg, hb]
        exact List.getElem?_set_ne hne
    · simp only [fetchStep, hg, hb]
      exact List.getElem?_set_ne hne

lemma fetchStep_calls_sub (beh : ℕ → Option String → FetchOutcome)
    (category : Option String) (now : ℚ) (ls : FetchLoopState) (idx j : ℕ)
    (hj : j ∈ (fetchStep beh category now ls idx).2.calls) :
    j ∈ ls.calls ∨ j = idx := by
  rcases hg : ls.providers[idx]? with _ | p
  · simp only [fetchStep, hg] at hj
    exact Or.inl hj
  · rcases hb : beh idx category with arts | msg
    · rcases arts with _ | ⟨a0, rest⟩
      · simp only [fetchStep, hg, hb, List.mem_append, List.mem_singleton] at hj
        exact hj
      · simp only [fetchStep, hg, hb, List.mem_append, List.mem_singleton] at hj
        exact hj
    · simp only [fetchStep, hg, hb, List.mem_append, List.mem_singleton] at hj
      exact hj

lemma fetchLoop_get?_not_mem (beh : ℕ → Option String → FetchOutcome)
    (category : Option String) (now : ℚ) (idxs : List ℕ) (ls : FetchLoopState)
    (j : ℕ) (hj : j ∉ idxs) :
    (fetchLoop beh category now idxs ls).2.providers[j]? = ls.providers[j]? := by
  induction idxs generalizing ls with
  | nil => rfl
  | cons i rest ih =>
    have hji : i ≠ j := fun h => hj (h ▸ List.mem_cons_self i rest)
    have hjr : j ∉ rest := fun h => hj (List.mem_cons_of_mem i h)
    rcases hs : fetchStep beh category now ls i with ⟨o, ls'⟩
    have hpres : ls'.providers[j]? = ls.providers[j]? := by
      have := fetchStep_get?_ne beh category now ls i j hji
      rw [hs] at this
      exact this
    rcases o with _ | arts
    · show (fetchLoop beh category now (i :: rest) ls).2.providers[j]? = _
      unfold fetchLoop
      rw [hs]
      rw [ih ls' hjr, hpres]
    · show (fetchLoop beh category now (i :: rest) ls).2.providers[j]? = _
      unfold fetchLoop
      rw [hs]
      exact hpres

lemma fetchLoop_providers_length (beh : ℕ → Option String → FetchOutcome)
    (category : Option String) (now : ℚ) (idxs : List ℕ) (ls : FetchLoopState) :
    (fetchLoop beh category now idxs ls).2.providers.length = ls.providers.length := by
  induction idxs generalizing ls with
  | nil => rfl
  | cons i rest ih =>
    rcases hs : fetchStep beh category now ls i with ⟨o, ls'⟩
    have hlen : ls'.providers.length = ls.providers.length := by
      have := fetchStep_providers_length beh category now ls i
      rw [hs] at this
      exact this
    rcases o with _ | arts
    · unfold fetchLoop
      rw [hs]
      rw [ih ls', hlen]
    · unfold fetchLoop
      rw [hs]
      exact hlen

lemma fetchLoop_calls_sub (beh : ℕ → Option String → FetchOutcome)
    (category : Option String) (now : ℚ) (idxs : List ℕ) (ls : FetchLoopState)
    (j : ℕ) (hj : j ∈ (fetchLoop beh category now idxs ls).2.calls) :
    j ∈ ls.calls ∨ j ∈ idxs := by
  induction idxs generalizing ls with
  | nil => exact Or.inl hj
  | cons i rest ih =>
    rcases hs : fetchStep beh category now ls i with ⟨o, ls'⟩
    have hstep : ∀ k, k ∈ ls'.calls → k ∈ ls.calls ∨ k = i := by
      intro k hk
      apply fetchStep_calls_sub beh category now ls i k
      rw [hs]
      exact hk
    rcases o with _ | arts
    · unfold fetchLoop at hj
      rw [hs] at hj
      rcases ih ls' hj with h | h
      · rcases hstep j h with h' | h'
        · exact Or.inl h'
        · exact Or.inr (h' ▸ List.mem_cons_self i rest)
      · exact Or.inr (List.mem_cons_of_mem i h)
    · unfold fetchLoop at hj
      rw [hs] at hj
      rcases hstep j hj with h' | h'
      · exact Or.inl h'
      · exact Or.inr (h' ▸ List.mem_cons_self i rest)

lemma aggErrors_cons (names : List String) (beh : ℕ → Option String → FetchOutcome)
    (category : Option String) (i : ℕ) (rest : List ℕ) :
    aggErrors names beh category (i :: rest) =
      (match names[i]?, beh i category with
        | some nm, .err msg => [nm ++ ": " ++ msg]
        | _, _ => []) ++ aggErrors names beh category rest := by
  rcases hn : names[i]? with _ | nm
  · rcases hb : beh i category with arts | msg <;>
      simp [aggErrors, List.filterMap_cons, hn, hb]
  · rcases hb : beh i category with arts | msg <;>
      simp [aggErrors, List.filterMap_cons, hn, hb]

/-- A failing step (missing index, raised exception, or empty result)
returns no articles and appends exactly its `aggErrors` contribution. -/
lemma fetchStep_fail (beh : ℕ → Option String → FetchOutcome)
    (category : Option String) (now : ℚ) (ls : FetchLoopState) (idx : ℕ)
    (hfail : isFail (beh idx category) = true) :
    (fetchStep beh category now ls idx).1 = none ∧
    (fetchStep beh category now ls idx).2.errors
      = ls.errors ++ aggErrors (ls.providers.map NewsProvider.name) beh category [idx] := by
  rcases hg : ls.providers[idx]? with _ | p
  · have hn : (ls.providers.map NewsProvider.name)[idx]? = none := by
      rw [List.getElem?_map, hg]; rfl
    rcases hb : beh idx category with arts | msg <;>
      simp [fetchStep, hg, aggErrors, List.filterMap_cons, hn, hb]
  · have hn : (ls.providers.map NewsProvider.name)[idx]? = some p.name := by
      rw [List.getElem?_map, hg]; rfl
    rcases hb : beh idx category with arts | msg
    · rcases arts with _ | ⟨a0, rest⟩
      · simp [fetchStep, hg, hb, aggErrors, List.filterMap_cons, hn]
      · rw [hb] at hfail
        exact absurd hfail (by simp [isFail])
    · simp [fetchStep, hg, hb, aggErrors, List.filterMap_cons, hn]

/-- A successful step (registered provider, non-empty result) returns the
processed articles. -/
lemma fetchStep_success (beh : ℕ → Option String → FetchOutcome)
    (category : Option String) (now : ℚ) (ls : FetchLoopState) (idx : ℕ)
    (p : NewsProvider) (a0 : Article) (arts : List Article)
    (hg : ls.providers[idx]? = some p)
    (hb : beh idx category = .ok (a0 :: arts)) :
    (fetchStep beh category now ls idx).1 = some ((a0 :: arts).map processArticle) := by
  simp [fetchStep, hg, hb]

/-- When every listed provider fails, the loop produces no articles and
its accumulated errors are exactly the `aggErrors` of the listed indices
(provider names never change during the loop). -/
lemma fetchLoop_all_fail (beh : ℕ → Option String → FetchOutcome)
    (category : Option String) (now : ℚ) (idxs : List ℕ) (ls : FetchLoopState)
    (h : ∀ i ∈ idxs, isFail (beh i category) = true) :
    (fetchLoop beh category now idxs ls).1 = none ∧
    (fetchLoop beh category now idxs ls).2.errors
      = ls.errors ++ aggErrors (ls.providers.map NewsProvider.name) beh category idxs := by
  induction idxs generalizing ls with
  | nil => simp [fetchLoop, aggErrors]
  | cons i rest ih =>
    have hi := h i (List.mem_cons_self i rest)
    have hrest : ∀ k ∈ rest, isFail (beh k category) = true :=
      fun k hk => h k (List.mem_cons_of_mem i hk)
    rcases hs : fetchStep beh category now ls i with ⟨o, ls'⟩
    have hstep := fetchStep_fail beh category now ls i hi
    rw [hs] at hstep
    have hnames := fetchStep_providers_names beh category now ls i
    rw [hs] at hnames
    have ho : o = none := hstep.1
    subst ho
    have hrec := ih ls' hrest
    constructor
    · show (fetchLoop beh category now (i :: rest) ls).1 = none
      unfold fetchLoop
      rw [hs]
      exact hrec.1
    · show (fetchLoop beh category now (i :: rest) ls).2.errors = _
      unfold fetchLoop
      rw [hs, hrec.2, hnames, hstep.2, aggErrors_cons]
      simp only [aggErrors, List.append_assoc, List.append_cancel_left_eq]
      rw [List.filterMap_cons]
      rcases hn : ls.providers[i]? with _ | p <;>
        rcases hb : beh i category with arts | msg <;>
          simp [List.getElem?_map, hn, hb]

/-- If the loop produced no articles, every listed provider with a valid
index failed. -/
lemma fetchLoop_none_all_fail (beh : ℕ → Option String → FetchOutcome)
    (category : Option String) (now : ℚ) (idxs : List ℕ) (ls : FetchLoopState)
    (hnone : (fetchLoop beh category now idxs ls).1 = none) :
    ∀ j ∈ idxs, j < ls.providers.length → isFail (beh j category) = true := by
  induction idxs generalizing ls with
  | nil => intro j hj; exact absurd hj (List.not_mem_nil j)
  | cons i rest ih =>
    intro j hj hlt
    rcases hs : fetchStep beh category now ls i with ⟨o, ls'⟩
    rcases o with _ | arts
    · -- the head did not succeed; recurse for the tail
      have hnone' : (fetchLoop beh category now rest ls').1 = none := by
        unfold fetchLoop at hnone
        rw [hs] at hnone
        exact hnone
      rcases List.mem_cons.mp hj with hji | hjr
      · subst hji
        have hg : ∃ p, ls.providers[j]? = some p := by
          rcases List.getElem?_eq_some.mpr ⟨hlt, rfl⟩ with h
          exact ⟨_, h⟩
        rcases hg with ⟨p, hg⟩
        rcases hb : beh j category with arts | msg
        · rcases arts with _ | ⟨a0, as⟩
          · simp [isFail]
          · have := fetchStep_success beh category now ls j p a0 as hg hb
            rw [hs] at this
            exact absurd this (by simp)
        · simp [isFail]
      · have hlen : ls'.providers.length = ls.providers.length := by
          have := fetchStep_providers_length beh category now ls i
          rw [hs] at this
          exact this
        exact ih ls' hnone' j hjr (hlen ▸ hlt)
    · unfold fetchLoop at hnone
      rw [hs] at hnone
      exact absurd hnone (by simp)

/-- `_load_from_cache` reads only the cache files. -/
lemma load_from_cache_congr (m m' : NewsProviderManager) (h : m.cache = m'.cache)
    (category : Option String) (ignore_age : Bool) (now : ℚ) :
    m.load_from_cache category ignore_age now
      = m'.load_from_cache category ignore_age now := by
  unfold NewsProviderManager.load_from_cache
  rw [h]

/-- On a fresh-cache miss, `fetch_news` hands its provider list to the
loop and returns the loop's provider states and call trace unchanged. -/
lemma fetch_news_assembly (m : NewsProviderManager)
    (beh : ℕ → Option String → FetchOutcome) (category : Option String) (now : ℚ)
    (hmiss : freshMiss m category now) :
    (m.fetch_news beh category now).manager.providers
        = (fetchLoop beh category now m.available_providers
            { providers := m.providers, available_providers := m.available_providers,
              errors := [], calls := [] }).2.providers ∧
    (m.fetch_news beh category now).calls
        = (fetchLoop beh category now m.available_providers
            { providers := m.providers, available_providers := m.available_providers,
              errors := [], calls := [] }).2.calls := by
  unfold NewsProviderManager.fetch_news
  rw [show (if m.use_cache then m.load_from_cache category false now else []) = []
    from hmiss]
  simp only [ne_eq, not_true_eq_false, if_false]
  rcases hl : fetchLoop beh category now m.available_providers
      { providers := m.providers, available_providers := m.available_providers,
        errors := [], calls := [] } with ⟨o, ls'⟩
  rcases o with _ | arts <;>
    constructor <;>
      (split <;> (try split) <;> simp_all [NewsProviderManager.save_to_cache])

/-- The provider record after a raising step: `track_request(False)` then
`mark_unavailable` — two increments of `consecutive_failures` and an
immediate loss of availability. -/
lemma fetchStep_err_provider (beh : ℕ → Option String → FetchOutcome)
    (category : Option String) (now : ℚ) (ls : FetchLoopState) (idx : ℕ)
    (p : NewsProvider) (msg : String)
    (hg : ls.providers[idx]? = some p)
    (hb : beh idx category = .err msg) :
    (fetchStep beh category now ls idx).1 = none ∧
    ∃ q, (fetchStep beh category now ls idx).2.providers[idx]? = some q ∧
      q.consecutive_failures = p.consecutive_failures + 2 ∧
      q.is_available = false ∧
      q.total_requests = p.total_requests + 1 ∧
      q.last_error = some msg := by
  have hlt : idx < ls.providers.length := by
    rcases List.getElem?_eq_some.mp hg with ⟨h, _⟩; exact h
  refine ⟨by simp [fetchStep, hg, hb], ?_⟩
  simp only [fetchStep, hg, hb]
  refine ⟨_, List.getElem?_set_eq_of_lt _ hlt, ?_, ?_, ?_, ?_⟩ <;>
    · split <;> simp [NewsProvider.track_request, NewsProvider.mark_unavailable]

/-- An empty-result step: the provider is penalised by `track_request(False)`
and the loop state is otherwise unchanged. -/
lemma fetchStep_empty_provider (beh : ℕ → Option String → FetchOutcome)
    (category : Option String) (now : ℚ) (ls : FetchLoopState) (idx : ℕ)
    (p : NewsProvider)
    (hg : ls.providers[idx]? = some p)
    (hb : beh idx category = .ok []) :
    (fetchStep beh category now ls idx).1 = none ∧
    (fetchStep beh category now ls idx).2 =
      { ls with providers := ls.providers.set idx (p.track_request false now),
                calls := ls.calls ++ [idx] } := by
  exact ⟨by simp [fetchStep, hg, hb], by simp only [fetchStep, hg, hb]⟩

/-- On a fresh-cache miss, the value returned (or exception raised) by
`fetch_news` is determined by the loop outcome and the stale cache read. -/
lemma fetch_news_result (m : NewsProviderManager)
    (beh : ℕ → Option String → FetchOutcome) (category : Option String) (now : ℚ)
    (hmiss : freshMiss m category now) :
    (m.fetch_news beh category now).result
      = (match (fetchLoop beh category now m.available_providers
            { providers := m.providers, available_providers := m.available_providers,
              errors := [], calls := [] }).1 with
         | some arts => Except.ok arts
         | none =>
           match m.load_from_cache category true now with
           | [] => Except.error ("All news providers failed: " ++
               String.intercalate "; "
                 (fetchLoop beh category now m.available_providers
                   { providers := m.providers,
                     available_providers := m.available_providers,
                     errors := [], calls := [] }).2.errors)
           | a0 :: rest => Except.ok (a0 :: rest)) := by
  unfold NewsProviderManager.fetch_news
  rw [show (if m.use_cache then m.load_from_cache category false now else []) = []
    from hmiss]
  simp only [ne_eq, not_true_eq_false, if_false]
  rcases hl : fetchLoop beh category now m.available_providers
      { providers := m.providers, available_providers := m.available_providers,
        errors := [], calls := [] } with ⟨o, ls'⟩
  rcases o with _ | arts
  · have hload : ({ m with providers := ls'.providers
                           available_providers := ls'.available_providers } :
          NewsProviderManager).load_from_cache category true now
        = m.load_from_cache category true now :=
      load_from_cache_congr _ m rfl category true now
    rcases hstale : m.load_from_cache category true now with _ | ⟨a0, rest⟩ <;>
      simp_all
  · rfl

/-- **C1.** With the fresh cache missing, if every provider in the rotation
fails (raises or returns empty), `fetch_news` falls back to a stale cache
read ignoring expiry and returns it when present; it raises exactly when,
in addition, no stale cache exists, and then the exception message
aggregates each raising provider's failure message in rotation order. -/
theorem C1_aggregate_failure (m : NewsProviderManager)
    (beh : ℕ → Option String → FetchOutcome) (category : Option String) (now : ℚ)
    (hwf : ∀ i ∈ m.available_providers, i < m.providers.length)
    (hmiss : freshMiss m category now) :
    ((∀ i ∈ m.available_providers, isFail (beh i category) = true) →
      (m.load_from_cache category true now ≠ [] →
        (m.fetch_news beh category now).result
          = .ok (m.load_from_cache category true now)) ∧
      (m.load_from_cache category true now = [] →
        (m.fetch_news beh category now).result
          = .error ("All news providers failed: " ++ String.intercalate "; "
              (aggErrors (m.providers.map NewsProvider.name) beh category
                m.available_providers)))) ∧
    (∀ e, (m.fetch_news beh category now).result = .error e →
      (∀ i ∈ m.available_providers, isFail (beh i category) = true) ∧
      m.load_from_cache category true now = [] ∧
      e = "All news providers failed: " ++ String.intercalate "; "
            (aggErrors (m.providers.map NewsProvider.name) beh category
              m.available_providers)) := by
  have hres := fetch_news_result m beh category now hmiss
  constructor
  · intro hall
    have hloop := fetchLoop_all_fail beh category now m.available_providers
      { providers := m.providers, available_providers := m.available_providers,
        errors := [], calls := [] } hall
    rw [hloop.1] at hres
    constructor
    · intro hne
      rcases hstale : m.load_from_cache category true now with _ | ⟨a0, rest⟩
      · exact absurd hstale hne
      · rw [hstale] at hres
        rw [hres]
    · intro hempty
      rw [hempty] at hres
      rw [hres, hloop.2]
      simp
  · intro e he
    rw [hres] at he
    rcases hl1 : (fetchLoop beh category now m.available_providers
        { providers := m.providers, available_providers := m.available_providers,
          errors := [], calls := [] }).1 with _ | arts
    · rw [hl1] at he
      rcases hstale : m.load_from_cache category true now with _ | ⟨a0, rest⟩
      · rw [hstale] at he
        have hall : ∀ i ∈ m.available_providers, isFail (beh i category) = true := by
          intro i hi
          exact fetchLoop_none_all_fail beh category now m.available_providers
            _ hl1 i hi (hwf i hi)
        refine ⟨hall, rfl, ?_⟩
        have hloop := fetchLoop_all_fail beh category now m.available_providers
          { providers := m.providers, available_providers := m.available_providers,
            errors := [], calls := [] } hall
        have he' := he
        simp only [Except.error.injEq] at he'
        rw [← he', hloop.2]
        simp
      · rw [hstale] at he
        exact absurd he (by simp)
    · rw [hl1] at he
      exact absurd he (by simp)

/-- Witness for C1: all three providers raise, caching is off and no cache
file exists — `fetch_news` raises the aggregate message enumerating all
three failures. -/
theorem C1_aggregate_failure_witness :
    (∀ i ∈ mgr0.available_providers, i < mgr0.providers.length) ∧
    freshMiss mgr0 none 0 ∧
    (∀ i ∈ mgr0.available_providers, isFail (behAllFail i none) = true) ∧
    mgr0.load_from_cache none true 0 = [] ∧
    (mgr0.fetch_news behAllFail none 0).result
      = .error "All news providers failed: Guardian: e0; GDELT: e1; NewsAPI: e2" := by
  refine ⟨by decide, by decide, by decide, by decide, ?_⟩
  have h := ((C1_aggregate_failure mgr0 behAllFail none 0 (by decide) (by decide)).1
    (by decide)).2 (by decide)
  have hmsg : "All news providers failed: " ++ String.intercalate "; "
      (aggErrors (mgr0.providers.map NewsProvider.name) behAllFail none
        mgr0.available_providers)
      = "All news providers failed: Guardian: e0; GDELT: e1; NewsAPI: e2" := by decide
  rw [h, hmsg]

/-- **C2, counterexample.** The claim says that after a single failed fetch
attempt the provider shows `consecutiveFailures == 1` and is still
available.  In the code a raising attempt runs `track_request(False)` and
`mark_unavailable`, each incrementing the counter, and `mark_unavailable`
clears availability at once: after one raising attempt the Guardian
provider shows `consecutiveFailures == 2` and is unavailable. -/
theorem C2_counterexample :
    (mgr1.providers[0]?.map
      (fun q => (q.consecutive_failures, q.is_available))) = some (2, false) ∧
    ¬ ((mgr1.providers[0]?.map
      (fun q => (q.consecutive_failures, q.is_available))) = some (1, true)) := by
  constructor <;> decide

/-- **C2, amended.** `consecutiveFailures` resets to 0 on any successful
`track_request`; a single raising fetch attempt inside `fetch_news` leaves
the provider with `consecutiveFailures` increased by 2 (once in
`track_request(False)`, once in `mark_unavailable`) and immediately
unavailable; a single empty-result attempt increases it by 1 and leaves
availability unchanged. -/
theorem C2_failure_accounting :
    (∀ (p : NewsProvider) (now : ℚ),
      (p.track_request true now).consecutive_failures = 0) ∧
    (∀ (m : NewsProviderManager) (beh : ℕ → Option String → FetchOutcome)
        (category : Option String) (now : ℚ) (i : ℕ) (rest : List ℕ)
        (p : NewsProvider) (msg : String),
      freshMiss m category now →
      m.available_providers = i :: rest →
      i ∉ rest →
      m.providers[i]? = some p →
      beh i category = .err msg →
      ∃ q, (m.fetch_news beh category now).manager.providers[i]? = some q ∧
        q.consecutive_failures = p.consecutive_failures + 2 ∧
        q.is_available = false) ∧
    (∀ (m : NewsProviderManager) (beh : ℕ → Option String → FetchOutcome)
        (category : Option String) (now : ℚ) (i : ℕ) (rest : List ℕ)
        (p : NewsProvider),
      freshMiss m category now →
      m.available_providers = i :: rest →
      i ∉ rest →
      m.providers[i]? = some p →
      beh i category = .ok [] →
      ∃ q, (m.fetch_news beh category now).manager.providers[i]? = some q ∧
        q.consecutive_failures = p.consecutive_failures + 1 ∧
        q.is_available = p.is_available) := by
  refine ⟨?_, ?_, ?_⟩
  · intro p now
    simp [NewsProvider.track_request]
  · intro m beh category now i rest p msg hmiss hm hnin hp hb
    obtain ⟨hprov, _⟩ := fetch_news_assembly m beh category now hmiss
    rw [hprov, hm]
    rcases hs : fetchStep beh category now
        { providers := m.providers, available_providers := i :: rest,
          errors := [], calls := [] } i with ⟨o, ls1⟩
    have hstep := fetchStep_err_provider beh category now
      { providers := m.providers, available_providers := i :: rest,
        errors := [], calls := [] } i p msg hp hb
    rw [hs] at hstep
    have ho : o = none := hstep.1
    subst ho
    have hloopeq : fetchLoop beh category now (i :: rest)
        { providers := m.providers, available_providers := i :: rest,
          errors := [], calls := [] } = fetchLoop beh category now rest ls1 := by
      simp only [fetchLoop]
      rw [hs]
    rw [hloopeq, fetchLoop_get?_not_mem beh category now rest ls1 i hnin]
    obtain ⟨q, hq1, hq2, hq3, _, _⟩ := hstep.2
    exact ⟨q, hq1, hq2, hq3⟩
  · intro m beh category now i rest p hmiss hm hnin hp hb
    obtain ⟨hprov, _⟩ := fetch_news_assembly m beh category now hmiss
    rw [hprov, hm]
    have hlt : i < m.providers.length := by
      rcases List.getElem?_eq_some.mp hp with ⟨h, _⟩; exact h
    rcases hs : fetchStep beh category now
        { providers := m.providers, available_providers := i :: rest,
          errors := [], calls := [] } i with ⟨o, ls1⟩
    have hstep := fetchStep_empty_provider beh category now
      { providers := m.providers, available_providers := i :: rest,
        errors := [], calls := [] } i p hp hb
    rw [hs] at hstep
    have ho : o = none := hstep.1
    subst ho
    have hloopeq : fetchLoop beh category now (i :: rest)
        { providers := m.providers, available_providers := i :: rest,
          errors := [], calls := [] } = fetchLoop beh category now rest ls1 := by
      simp only [fetchLoop]
      rw [hs]
    have hls1 : ls1.providers = m.providers.set i (p.track_request false now) :=
      congrArg FetchLoopState.providers hstep.2
    rw [hloopeq, fetchLoop_get?_not_mem beh category now rest ls1 i hnin, hls1]
    refine ⟨p.track_request false now, ?_, ?_, ?_⟩
    · exact List.getElem?_set_eq_of_lt _ hlt
    · simp [NewsProvider.track_request]
    · simp [NewsProvider.track_request]

/-- Witness for C2 (amended): a successful `track_request` resets the
counter, a raising first provider ends at `+2` and unavailable, an
empty-result first provider ends at `+1` with availability unchanged. -/
theorem C2_failure_accounting_witness :
    ((NewsProvider.init "NewsAPI").track_request true 5).consecutive_failures = 0 ∧
    (freshMiss mgr0 none 0 ∧ mgr0.available_providers = 0 :: [1, 2] ∧
      (0 ∉ ([1, 2] : List ℕ)) ∧
      mgr0.providers[0]? = some (NewsProvider.init "Guardian") ∧
      behRaiseHead 0 none = .err "boom" ∧
      (∃ q, (mgr0.fetch_news behRaiseHead none 0).manager.providers[0]? = some q ∧
        q.consecutive_failures = (NewsProvider.init "Guardian").consecutive_failures + 2 ∧
        q.is_available = false)) ∧
    (behEmptyHead 0 none = .ok [] ∧
      (∃ q, (mgr0.fetch_news behEmptyHead none 0).manager.providers[0]? = some q ∧
        q.consecutive_failures = (NewsProvider.init "Guardian").consecutive_failures + 1 ∧
        q.is_available = (NewsProvider.init "Guardian").is_available)) := by
  refine ⟨C2_failure_accounting.1 (NewsProvider.init "NewsAPI") 5,
    ⟨by decide, by decide, by decide, by decide, by decide, ?_⟩,
    ⟨by decide, ?_⟩⟩
  · exact C2_failure_accounting.2.1 mgr0 behRaiseHead none 0 0 [1, 2]
      (NewsProvider.init "Guardian") "boom"
      (by decide) (by decide) (by decide) (by decide) (by decide)
  · exact C2_failure_accounting.2.2 mgr0 behEmptyHead none 0 0 [1, 2]
      (NewsProvider.init "Guardian")
      (by decide) (by decide) (by decide) (by decide) (by decide)

/-- **C3.** With caching enabled and a fresh (within 1 h) non-empty cache
entry, `fetch_news` returns the cached articles immediately: the manager
state is untouched (no provider counter changes) and no provider is
invoked (empty call trace). -/
theorem C3_fresh_cache_hit (m : NewsProviderManager)
    (beh : ℕ → Option String → FetchOutcome) (category : Option String) (now : ℚ)
    (huse : m.use_cache = true)
    (hhit : m.load_from_cache category false now ≠ []) :
    m.fetch_news beh category now =
      { result := .ok (m.load_from_cache category false now),
        manager := m, calls := [] } := by
  unfold NewsProviderManager.fetch_news
  rw [huse]
  simp only [if_true]
  rw [if_pos hhit]

/-- Witness for C3: a cache entry fetched at time 0 and read at time 10 is
returned as-is, with no provider call. -/
theorem C3_fresh_cache_hit_witness :
    (mgrC.use_cache = true ∧ mgrC.load_from_cache none false 10 = [artCached]) ∧
    mgrC.fetch_news behAllFail none 10 =
      { result := .ok [artCached], manager := mgrC, calls := [] } := by
  have hload : mgrC.load_from_cache none false 10 = [artCached] := by
    show NewsProviderManager.load_from_cache mgrC none false 10 = [artCached]
    unfold NewsProviderManager.load_from_cache
    have h1 : alookup mgrC.cache (cacheKey none) = some [artCached] := by decide
    rw [h1]
    have h2 : ¬ artCached.fetchedAt = none := by decide
    simp only [h2, if_false]
    have h3 : [artCached].head?.bind Article.fetchedAt = some 0 := by decide
    norm_num [h3, artCached]
  have h := C3_fresh_cache_hit mgrC behAllFail none 10 rfl
    (by rw [hload]; exact List.cons_ne_nil _ _)
  rw [hload] at h
  exact ⟨⟨rfl, hload⟩, h⟩

/-- **C4, counterexample.** The claim says a provider whose `isAvailable`
is false at the start of a `fetch_news` call is never invoked during that
call.  After one raising call, provider 0 is unavailable but — its
consecutive-failure count being below 3 — it was never removed from
`available_providers`, so the next call still invokes it. -/
theorem C4_counterexample :
    (mgr1.providers[0]?.map NewsProvider.is_available) = some false ∧
    0 ∈ (mgr1.fetch_news behRaiseHead none 1).calls := by
  constructor <;> decide

/-- **C4, amended.** `fetch_news` only ever invokes providers from the
`available_providers` list captured at call start, and leaves every
provider outside that list untouched; since that list is refreshed only at
construction, when some provider reaches 3 consecutive failures, or on
`reset_providers`, a provider whose `is_available` is false can still be
invoked while it remains listed. -/
theorem C4_rotation_skip (m : NewsProviderManager)
    (beh : ℕ → Option String → FetchOutcome) (category : Option String) (now : ℚ) :
    (∀ j ∈ (m.fetch_news beh category now).calls, j ∈ m.available_providers) ∧
    (∀ j, j ∉ m.available_providers →
      (m.fetch_news beh category now).manager.providers[j]? = m.providers[j]?) := by
  by_cases hmiss : freshMiss m category now
  · obtain ⟨hprov, hcalls⟩ := fetch_news_assembly m beh category now hmiss
    constructor
    · intro j hj
      rw [hcalls] at hj
      rcases fetchLoop_calls_sub beh category now m.available_providers
        { providers := m.providers, available_providers := m.available_providers,
          errors := [], calls := [] } j hj with h | h
      · exact absurd h (List.not_mem_nil j)
      · exact h
    · intro j hjn
      rw [hprov,
        fetchLoop_get?_not_mem beh category now m.available_providers _ j hjn]
  · have hhit : ¬ ((if m.use_cache then m.load_from_cache category false now
        else []) = []) := hmiss
    have heq : m.fetch_news beh category now =
        { result := .ok (if m.use_cache then m.load_from_cache category false now
            else []),
          manager := m, calls := [] } := by
      unfold NewsProviderManager.fetch_news
      rw [if_pos hhit]
    rw [heq]
    exact ⟨fun j hj => absurd hj (List.not_mem_nil j), fun j _ => rfl⟩

/-- Witness for C4 (amended): in the second call on `mgr1` the invoked
provider 0 is indeed listed in `available_providers`, and the out-of-range
index 5 is untouched. -/
theorem C4_rotation_skip_witness :
    (0 ∈ (mgr1.fetch_news behRaiseHead none 1).calls ∧
      0 ∈ mgr1.available_providers) ∧
    ((5 : ℕ) ∉ mgr1.available_providers ∧
      (mgr1.fetch_news behRaiseHead none 1).manager.providers[5]?
        = mgr1.providers[5]?) := by
  constructor
  · exact ⟨by decide, (C4_rotation_skip mgr1 behRaiseHead none 1).1 0 (by decide)⟩
  · exact ⟨by decide, (C4_rotation_skip mgr1 behRaiseHead none 1).2 5 (by decide)⟩

/-- **C5, counterexample.** The claim says an empty result leaves the
provider's `consecutiveFailures` unchanged; in the code the empty branch
calls `track_request(False)`, so the counter rises from 0 to 1. -/
theorem C5_counterexample :
    (mgr0.providers[0]?.map NewsProvider.consecutive_failures) = some 0 ∧
    ((mgr0.fetch_news behEmptyHead none 0).manager.providers[0]?.map
      NewsProvider.consecutive_failures) = some 1 := by
  constructor <;> decide

/-- **C5, amended.** On an empty result the loop logs and moves on to the
next provider with the state otherwise unchanged — no error is recorded
and availability is untouched — but the provider *is* penalised through
`track_request(False)`: `totalRequests` and `consecutiveFailures` both
increase by 1 while `successfulRequests` stays. -/
theorem C5_empty_result_soft_failure (beh : ℕ → Option String → FetchOutcome)
    (category : Option String) (now : ℚ) (ls : FetchLoopState)
    (i : ℕ) (rest : List ℕ) (p : NewsProvider)
    (hp : ls.providers[i]? = some p)
    (hb : beh i category = .ok []) :
    fetchLoop beh category now (i :: rest) ls =
      fetchLoop beh category now rest
        { ls with providers := ls.providers.set i (p.track_request false now),
                  calls := ls.calls ++ [i] } ∧
    (p.track_request false now).is_available = p.is_available ∧
    (p.track_request false now).consecutive_failures = p.consecutive_failures + 1 ∧
    (p.track_request false now).total_requests = p.total_requests + 1 ∧
    (p.track_request false now).successful_requests = p.successful_requests := by
  have hstep := fetchStep_empty_provider beh category now ls i p hp hb
  refine ⟨?_, ?_, ?_, ?_, ?_⟩
  · have hpair : fetchStep beh category now ls i =
        (none, { ls with providers := ls.providers.set i (p.track_request false now),
                         calls := ls.calls ++ [i] }) := by
      calc fetchStep beh category now ls i
          = ((fetchStep beh category now ls i).1,
             (fetchStep beh category now ls i).2) := rfl
        _ = (none, { ls with
              providers := ls.providers.set i (p.track_request false now),
              calls := ls.calls ++ [i] }) := by rw [hstep.1, hstep.2]
    simp only [fetchLoop]
    rw [hpair]
  · simp [NewsProvider.track_request]
  · simp [NewsProvider.track_request]
  · simp [NewsProvider.track_request]
  · simp [NewsProvider.track_request]

/-- Witness for C5 (amended): provider 0 of a fresh manager returns an
empty list — the loop continues with providers 1 and 2 after penalising
provider 0 with `track_request(False)`. -/
theorem C5_empty_result_soft_failure_witness :
    (({ providers := mgr0.providers, available_providers := mgr0.available_providers,
        errors := [], calls := [] } : FetchLoopState).providers[0]?
        = some (NewsProvider.init "Guardian") ∧
      behEmptyHead 0 none = .ok []) ∧
    fetchLoop behEmptyHead none 0 (0 :: [1, 2])
        { providers := mgr0.providers, available_providers := mgr0.available_providers,
          errors := [], calls := [] } =
      fetchLoop behEmptyHead none 0 [1, 2]
        { providers := mgr0.providers.set 0
            ((NewsProvider.init "Guardian").track_request false 0),
          available_providers := mgr0.available_providers,
          errors := [], calls := [] ++ [0] } ∧
    ((NewsProvider.init "Guardian").track_request false 0).consecutive_failures
      = (NewsProvider.init "Guardian").consecutive_failures + 1 ∧
    ((NewsProvider.init "Guardian").track_request false 0).is_available
      = (NewsProvider.init "Guardian").is_available := by
  have h := C5_empty_result_soft_failure behEmptyHead none 0
    { providers := mgr0.providers, available_providers := mgr0.available_providers,
      errors := [], calls := [] } 0 [1, 2] (NewsProvider.init "Guardian")
    (by decide) (by decide)
  exact ⟨⟨by decide, by decide⟩, h.1, h.2.2.1, h.2.1⟩

end NewsAuto
